import Mathlib

/-!
Shallow embedding of the bitrate convergence core of `squash`
(`src/squash/__main__.py`).  Python floats are modelled as exact
rationals (`ℚ`), byte counts and integer bitrates as `ℤ`.  The external
encoder is modelled as a deterministic function from the requested video
bitrate to the size in bytes of the encoded file.
-/

namespace Squash

attribute [local semireducible] Rat.add Rat.mul Rat.inv Rat.sub

/-! ### Constants (src/squash/__main__.py lines 17-21) -/

def BYTES_PER_MEGABYTE : ℤ := 1024 * 1024

def MIN_VIDEO_BITRATE : ℚ := 100

def MIN_AUDIO_BITRATE : ℤ := 32

def AUDIO_BITRATE : ℤ := 128

def CONTAINER_OVERHEAD : ℚ := 97 / 100

/-- Floor of a rational, written out so that kernel reduction can evaluate it. -/
def ratFloor (q : ℚ) : ℤ := q.num / (q.den : ℤ)

/-- Python `int(x)` applied to a float: truncation toward zero. -/
def pyInt (q : ℚ) : ℤ := if q < 0 then -ratFloor (-q) else ratFloor q

/-! ### `_calculate_target_bitrate` (lines 141-150) -/

def calculate_target_bitrate (duration : ℚ) (target_size_bytes : ℤ) (audio_bitrate : ℤ) : ℚ :=
  if duration ≤ 0 then MIN_VIDEO_BITRATE
  else
    let total_bitrate : ℚ := (target_size_bytes : ℚ) * 8 / duration / 1000
    let target_video_bitrate : ℚ := (total_bitrate - (audio_bitrate : ℚ)) * CONTAINER_OVERHEAD
    if target_video_bitrate < MIN_VIDEO_BITRATE then MIN_VIDEO_BITRATE
    else target_video_bitrate

/-! ### `_select_audio_bitrate` (lines 152-170) -/

def select_audio_bitrate (duration : ℚ) (target_size_bytes : ℤ) (default_audio_bitrate : ℤ) : ℤ :=
  if duration ≤ 0 then default_audio_bitrate
  else
    let total_bitrate : ℚ := (target_size_bytes : ℚ) * 8 / duration / 1000
    let min_video_total : ℚ := MIN_VIDEO_BITRATE / CONTAINER_OVERHEAD
    let max_audio_bitrate : ℚ := total_bitrate - min_video_total
    if (default_audio_bitrate : ℚ) ≤ max_audio_bitrate then default_audio_bitrate
    else if max_audio_bitrate ≤ 0 then MIN_AUDIO_BITRATE
    else
      let adjusted : ℤ := pyInt max_audio_bitrate
      if adjusted < MIN_AUDIO_BITRATE then MIN_AUDIO_BITRATE else adjusted

/-- The audio-bitrate rule as the specification states it (C7): return the
default when the total admissible bitrate minus the minimum viable video
bitrate (scaled by the inverse overhead factor) exceeds the default, otherwise
the remaining headroom truncated to an integer and floored at
`MIN_AUDIO_BITRATE`. -/
def select_audio_spec (duration : ℚ) (target_size_bytes : ℤ) (default_audio_bitrate : ℤ) : ℤ :=
  let total_bitrate : ℚ := (target_size_bytes : ℚ) * 8 / duration / 1000
  let headroom : ℚ := total_bitrate - MIN_VIDEO_BITRATE / CONTAINER_OVERHEAD
  if (default_audio_bitrate : ℚ) < headroom then default_audio_bitrate
  else max MIN_AUDIO_BITRATE (pyInt headroom)

/-! ### `_estimate_next_bitrate` (lines 172-206) -/

/-- The raw candidate before clamping (lines 182-194): secant interpolation when
both an under- and an over-target observation exist (guarded by `size_span > 0`),
proportional scaling when the current size is positive, bound midpoint otherwise. -/
def rawEstimate (current_bitrate : ℚ) (current_size target_size : ℤ)
    (min_bitrate max_bitrate : ℚ)
    (under over : Option (ℚ × ℤ)) : ℚ :=
  match under, over with
  | some u, some o =>
      if 0 < o.2 - u.2 then
        u.1 + ((target_size : ℚ) - (u.2 : ℚ)) * (o.1 - u.1) / ((o.2 : ℚ) - (u.2 : ℚ))
      else (min_bitrate + max_bitrate) / 2
  | _, _ =>
      if 0 < current_size then current_bitrate * ((target_size : ℚ) / (current_size : ℚ))
      else (min_bitrate + max_bitrate) / 2

/-- Clamp step (lines 196-199): `if nb < min: nb = min elif nb > max: nb = max`. -/
def clampStep (lo hi x : ℚ) : ℚ := if x < lo then lo else if hi < x then hi else x

/-- Damping step (lines 201-204): if the clamped candidate moved by less than
1 kbps, replace it by the bound midpoint (unless it already equals it). -/
def dampStep (lo hi cur x : ℚ) : ℚ :=
  if |x - cur| < 1 then
    if (lo + hi) / 2 = x then x else (lo + hi) / 2
  else x

def estimate_next_bitrate (current_bitrate : ℚ) (current_size target_size : ℤ)
    (min_bitrate max_bitrate : ℚ)
    (under over : Option (ℚ × ℤ)) : ℚ :=
  dampStep min_bitrate max_bitrate current_bitrate
    (clampStep min_bitrate max_bitrate
      (rawEstimate current_bitrate current_size target_size min_bitrate max_bitrate under over))

/-- The candidate computation as the specification states it (C1): secant
interpolation when both observations exist, otherwise proportional scaling;
clamp to `[min, max]`; if the clamped candidate differs from the current
bitrate by less than 1 kbps, replace it by the bound midpoint. -/
def estimate_spec (current_bitrate : ℚ) (current_size target_size : ℤ)
    (min_bitrate max_bitrate : ℚ)
    (under over : Option (ℚ × ℤ)) : ℚ :=
  let raw : ℚ :=
    match under, over with
    | some u, some o =>
        u.1 + ((target_size : ℚ) - (u.2 : ℚ)) * (o.1 - u.1) / ((o.2 : ℚ) - (u.2 : ℚ))
    | _, _ => current_bitrate * ((target_size : ℚ) / (current_size : ℚ))
  let clamped : ℚ := max min_bitrate (min max_bitrate raw)
  if |clamped - current_bitrate| < 1 then (min_bitrate + max_bitrate) / 2 else clamped

/-! ### The search loop of `_resize_video_to_target` (lines 364-458) -/

/-- Where the reported file ends up: the untouched input file, or the final
output path (the promoted temporary artifact). -/
inductive PathTag where
  | input
  | output
deriving DecidableEq

/-- The fields of the `EncodeResults` dictionary that the search loop
determines (paths and wall-clock time are abstracted to `PathTag`). -/
structure EncodeResults where
  success : Bool
  file_path : PathTag
  file_size : ℤ
  iteration : ℕ
  bitrate : ℚ
deriving DecidableEq

/-- Terminal outcome of the loop: a returned result dictionary, or the
exception raised on lines 452-458 (carrying either the `best_over`
observation or the final size), or the unreachable zero-iteration case. -/
inductive RunResult where
  | ok (r : EncodeResults)
  | failed (report : (ℚ × ℤ) ⊕ ℤ)
  | noRun
deriving DecidableEq

/-- The mutable search state of the loop (lines 364-374). -/
structure SearchState where
  min_bitrate : ℚ
  max_bitrate : ℚ
  current_bitrate : ℚ
  best_under : Option (ℚ × ℤ)
  best_over : Option (ℚ × ℤ)
deriving DecidableEq

/-- What one loop iteration produces: an early return (convergence,
lines 403-414), or the updated state together with the decided value of
the `current_bitrate < MIN_VIDEO_BITRATE` early-exit test (lines 433-435). -/
inductive StepOut where
  | done (r : EncodeResults)
  | next (s : SearchState) (tooLow : Bool)
deriving DecidableEq

/-- `best_under` update (lines 400-401): keep the under-target observation of
largest size. -/
def updateBestUnder : Option (ℚ × ℤ) → ℚ → ℤ → ℚ × ℤ
  | none, cur, sz => (cur, sz)
  | some p, cur, sz => if p.2 < sz then (cur, sz) else p

/-- `best_over` update (lines 419-420): keep the over-target observation of
smallest size. -/
def updateBestOver : Option (ℚ × ℤ) → ℚ → ℤ → ℚ × ℤ
  | none, cur, sz => (cur, sz)
  | some p, cur, sz => if sz < p.2 then (cur, sz) else p

/-- Candidate computation and low-bitrate test shared by both outcome
classes (lines 424-435). -/
def stepNext (target_size_bytes : ℤ) (s : SearchState) (new_file_size : ℤ) : StepOut :=
  let nb := estimate_next_bitrate s.current_bitrate new_file_size target_size_bytes
      s.min_bitrate s.max_bitrate s.best_under s.best_over
  .next { s with current_bitrate := nb } (decide (nb < MIN_VIDEO_BITRATE))

/-- One iteration body after the encode (lines 388-435), as a function of the
observed output size `new_file_size`. -/
def searchStep (target_size_bytes : ℤ) (tolerance_bytes : ℚ) (iteration : ℕ)
    (s : SearchState) (new_file_size : ℤ) : StepOut :=
  if new_file_size < target_size_bytes then
    if ((target_size_bytes - new_file_size : ℤ) : ℚ) < tolerance_bytes then
      .done ⟨true, .output, new_file_size, iteration, s.current_bitrate⟩
    else
      stepNext target_size_bytes
        { s with min_bitrate := s.current_bitrate,
                 best_under := some (updateBestUnder s.best_under s.current_bitrate new_file_size) }
        new_file_size
  else
    stepNext target_size_bytes
      { s with max_bitrate := s.current_bitrate,
               best_over := some (updateBestOver s.best_over s.current_bitrate new_file_size) }
      new_file_size

/-- The block after the loop (lines 437-458): promote the last artifact when it
is at or under target, otherwise raise, reporting `best_over` when recorded. -/
def finalizeRun (target_size_bytes : ℤ) (iteration : ℕ)
    (last : Option (ℤ × ℚ)) (best_over : Option (ℚ × ℤ)) : RunResult :=
  match last with
  | none => .noRun
  | some (final_size, final_bitrate) =>
      if final_size ≤ target_size_bytes then
        .ok ⟨false, .output, final_size, iteration, final_bitrate⟩
      else
        match best_over with
        | some bo => .failed (.inl bo)
        | none => .failed (.inr final_size)

/-- The post-loop behaviour as claim C4 states it: when the last encode's size
is at or under the target, an `Exhausted` partial-success result promoting the
last artifact with that size and bitrate; otherwise a failure reporting the
`best_over` observation when one exists and the last outcome otherwise. -/
def exhaustedOutcome (target_size_bytes : ℤ) (iteration : ℕ)
    (last_size : ℤ) (last_bitrate : ℚ) (best_over : Option (ℚ × ℤ)) : RunResult :=
  if last_size ≤ target_size_bytes then
    .ok ⟨false, .output, last_size, iteration, last_bitrate⟩
  else
    match best_over with
    | some bo => .failed (.inl bo)
    | none => .failed (.inr last_size)

/-- The `while iteration < iterations` loop (lines 380-458), driven by a
deterministic encoder `enc` mapping the requested video bitrate to the size of
the encoded file.  `fuel` is the number of remaining iterations, `it` the
number already performed, `last` the last encode's (size, bitrate).  The
second component records whether the low-bitrate early exit was ever taken. -/
def searchLoopAux (enc : ℚ → ℤ) (target_size_bytes : ℤ) (tolerance_bytes : ℚ) :
    ℕ → ℕ → Option (ℤ × ℚ) → SearchState → RunResult × Bool
  | 0, it, last, s => (finalizeRun target_size_bytes it last s.best_over, false)
  | fuel + 1, it, _, s =>
      let new_file_size := enc s.current_bitrate
      match searchStep target_size_bytes tolerance_bytes (it + 1) s new_file_size with
      | .done r => (.ok r, false)
      | .next s' tooLow =>
          if tooLow then
            (finalizeRun target_size_bytes (it + 1)
              (some (new_file_size, s.current_bitrate)) s'.best_over, true)
          else
            searchLoopAux enc target_size_bytes tolerance_bytes fuel (it + 1)
              (some (new_file_size, s.current_bitrate)) s'

/-- A full run of the search loop with iteration budget `maxIterations`. -/
def runLoop (enc : ℚ → ℤ) (target_size_bytes : ℤ) (tolerance_bytes : ℚ)
    (maxIterations : ℕ) (s : SearchState) : RunResult × Bool :=
  searchLoopAux enc target_size_bytes tolerance_bytes maxIterations 0 none s

/-- Whether a run result is the `Converged` success outcome reached within `n`
iterations. -/
def convergedBy (res : RunResult) (n : ℕ) : Bool :=
  match res with
  | .ok r => r.success && decide (r.iteration ≤ n)
  | _ => false

/-- Initial bounds (lines 364-369): `min = MIN_VIDEO_BITRATE`,
`max = target_bitrate * 2`, capped at
`max(MIN_VIDEO_BITRATE, source_bitrate - audio_bitrate) * 1.1` when a positive
source bitrate is known, then floored so that `max ≥ target_bitrate`. -/
def initial_bounds (target_bitrate : ℚ) (source_bitrate : Option ℚ) (audio_bitrate : ℤ) :
    ℚ × ℚ :=
  let min_bitrate : ℚ := MIN_VIDEO_BITRATE
  let max_bitrate : ℚ := target_bitrate * 2
  let max_bitrate : ℚ :=
    match source_bitrate with
    | some sb =>
        if 0 < sb then
          min max_bitrate (max MIN_VIDEO_BITRATE (sb - (audio_bitrate : ℚ)) * (11 / 10))
        else max_bitrate
    | none => max_bitrate
  (min_bitrate, max max_bitrate target_bitrate)

/-- The initial bounds as claim C5 states them for a known positive source
bitrate: `max` is the minimum of `target_bitrate * 2` and
`(source_bitrate - audio_bitrate) * 1.1`, floored so that
`max ≥ target_bitrate`. -/
def initial_bounds_claim (target_bitrate source_bitrate : ℚ) (audio_bitrate : ℤ) : ℚ × ℚ :=
  (MIN_VIDEO_BITRATE,
    max (min (target_bitrate * 2) ((source_bitrate - (audio_bitrate : ℚ)) * (11 / 10)))
      target_bitrate)

/-! ### Progress parsing: percent-complete of `_build_progress_status`
(lines 208-220) -/

/-- The percent value derived for a progress block whose `out_time_ms` field
parses as the integer `out_time_ms` (lines 215-218): defined only when the
duration is positive, and clamped from above at 100. -/
def progress_percent (out_time_ms : ℤ) (duration : ℚ) : Option ℚ :=
  if 0 < duration then
    some (min 100 (((out_time_ms : ℚ) / 1000000) / duration * 100))
  else none

/-! ### Concrete runs

Scenario A of the specification: a 120 s video, target 100 MB, default 2 %
tolerance, source file of 500 MB, and the synthetic linear encoder
`size = bitrate_kbps * duration_s * 125` bytes. -/

def targetBytesA : ℤ := 100 * BYTES_PER_MEGABYTE

def audioA : ℤ := select_audio_bitrate 120 targetBytesA AUDIO_BITRATE

def sourceBitrateA : ℚ := ((500 * BYTES_PER_MEGABYTE : ℤ) : ℚ) * 8 / 120 / 1000

def targetBitrateA : ℚ := calculate_target_bitrate 120 targetBytesA audioA

def boundsA : ℚ × ℚ := initial_bounds targetBitrateA (some sourceBitrateA) audioA

def stateA : SearchState := ⟨boundsA.1, boundsA.2, targetBitrateA, none, none⟩

/-- The linear synthetic encoder of Scenario A: `size = bitrate * 120 * 125`
bytes, floored to a whole byte count. -/
def encA (b : ℚ) : ℤ := ratFloor (b * 120 * 125)

/-- A run used against claim C9: an 80 s video, target 10 MB, default 2 %
tolerance, probed source bitrate 5242.88 kbps. -/

def targetBytes9 : ℤ := 10 * BYTES_PER_MEGABYTE

def audio9 : ℤ := select_audio_bitrate 80 targetBytes9 AUDIO_BITRATE

def targetBitrate9 : ℚ := calculate_target_bitrate 80 targetBytes9 audio9

def bounds9 : ℚ × ℚ := initial_bounds targetBitrate9 (some (524288 / 100)) audio9

def state9 : SearchState := ⟨bounds9.1, bounds9.2, targetBitrate9, none, none⟩

/-- A monotonically increasing (weakly) encoder whose output size always
exceeds the 10485760-byte target, so that no bitrate ever lands in the
tolerance band. -/
def enc9 (b : ℚ) : ℤ := if b < 500 then 10485761 else 10485762

/-- The state used in the C5 counterexample: a 106 s video with a 3 MB target
and a probed source bitrate of 150 kbps. -/

def targetBytesC5 : ℤ := 3 * BYTES_PER_MEGABYTE

def audioC5 : ℤ := select_audio_bitrate 106 targetBytesC5 AUDIO_BITRATE

def targetBitrateC5 : ℚ := calculate_target_bitrate 106 targetBytesC5 audioC5

/-! ### Helper lemmas -/

theorem ratFloor_eq (q : ℚ) : ratFloor q = ⌊q⌋ := Rat.floor_def.symm

theorem pyInt_intCast (n : ℤ) : pyInt ((n : ℚ)) = n := by
  unfold pyInt
  split_ifs with h
  · rw [ratFloor_eq, ← Int.cast_neg, Int.floor_intCast, neg_neg]
  · rw [ratFloor_eq, Int.floor_intCast]

theorem pyInt_of_nonneg {q : ℚ} (h : 0 ≤ q) : pyInt q = ⌊q⌋ := by
  unfold pyInt
  rw [if_neg (not_lt.2 h), ratFloor_eq]

theorem pyInt_nonpos {q : ℚ} (h : q ≤ 0) : pyInt q ≤ 0 := by
  unfold pyInt
  split_ifs with h1
  · rw [ratFloor_eq]
    have : (0 : ℤ) ≤ ⌊-q⌋ := Int.floor_nonneg.2 (by linarith)
    omega
  · rw [ratFloor_eq]
    calc ⌊q⌋ ≤ ⌊(0 : ℚ)⌋ := Int.floor_le_floor h
    _ = 0 := Int.floor_zero

theorem clampStep_mem {lo hi : ℚ} (x : ℚ) (h : lo ≤ hi) :
    lo ≤ clampStep lo hi x ∧ clampStep lo hi x ≤ hi := by
  unfold clampStep
  split_ifs with h1 h2
  · exact ⟨le_refl _, h⟩
  · exact ⟨h, le_refl _⟩
  · exact ⟨le_of_not_lt h1, le_of_not_lt h2⟩

theorem clampStep_eq_max_min {lo hi : ℚ} (h : lo ≤ hi) (x : ℚ) :
    clampStep lo hi x = max lo (min hi x) := by
  unfold clampStep
  split_ifs with h1 h2
  · exact (max_eq_left (le_of_lt (lt_of_le_of_lt (min_le_right hi x) h1))).symm
  · rw [min_eq_left (le_of_lt h2)]
    exact (max_eq_right h).symm
  · rw [min_eq_right (not_lt.1 h2), max_eq_right (not_lt.1 h1)]

theorem dampStep_mem {lo hi cur x : ℚ} (h : lo ≤ hi) (hx1 : lo ≤ x) (hx2 : x ≤ hi) :
    lo ≤ dampStep lo hi cur x ∧ dampStep lo hi cur x ≤ hi := by
  unfold dampStep
  split_ifs with h1 h2
  · exact ⟨hx1, hx2⟩
  · constructor <;> linarith
  · exact ⟨hx1, hx2⟩

theorem dampStep_eq (lo hi cur x : ℚ) :
    dampStep lo hi cur x = if |x - cur| < 1 then (lo + hi) / 2 else x := by
  unfold dampStep
  split_ifs with h1 h2
  · exact h2.symm
  · rfl
  · rfl

theorem estimate_mem (current_bitrate : ℚ) (current_size target_size : ℤ)
    {min_bitrate max_bitrate : ℚ} (under over : Option (ℚ × ℤ))
    (h : min_bitrate ≤ max_bitrate) :
    min_bitrate ≤ estimate_next_bitrate current_bitrate current_size target_size
        min_bitrate max_bitrate under over
    ∧ estimate_next_bitrate current_bitrate current_size target_size
        min_bitrate max_bitrate under over ≤ max_bitrate := by
  unfold estimate_next_bitrate
  obtain ⟨c1, c2⟩ := clampStep_mem
    (rawEstimate current_bitrate current_size target_size min_bitrate max_bitrate under over) h
  exact dampStep_mem h c1 c2

theorem rawEstimate_both (current_bitrate : ℚ) (current_size target_size : ℤ)
    (min_bitrate max_bitrate : ℚ) (u o : ℚ × ℤ) :
    rawEstimate current_bitrate current_size target_size min_bitrate max_bitrate
        (some u) (some o)
      = if 0 < o.2 - u.2 then
          u.1 + ((target_size : ℚ) - (u.2 : ℚ)) * (o.1 - u.1) / ((o.2 : ℚ) - (u.2 : ℚ))
        else (min_bitrate + max_bitrate) / 2 := rfl

theorem rawEstimate_none_left (current_bitrate : ℚ) (current_size target_size : ℤ)
    (min_bitrate max_bitrate : ℚ) (over : Option (ℚ × ℤ)) :
    rawEstimate current_bitrate current_size target_size min_bitrate max_bitrate
        none over
      = if 0 < current_size then
          current_bitrate * ((target_size : ℚ) / (current_size : ℚ))
        else (min_bitrate + max_bitrate) / 2 := rfl

theorem rawEstimate_none_right (current_bitrate : ℚ) (current_size target_size : ℤ)
    (min_bitrate max_bitrate : ℚ) (u : ℚ × ℤ) :
    rawEstimate current_bitrate current_size target_size min_bitrate max_bitrate
        (some u) none
      = if 0 < current_size then
          current_bitrate * ((target_size : ℚ) / (current_size : ℚ))
        else (min_bitrate + max_bitrate) / 2 := rfl

theorem estimate_spec_both (current_bitrate : ℚ) (current_size target_size : ℤ)
    (min_bitrate max_bitrate : ℚ) (u o : ℚ × ℤ) :
    estimate_spec current_bitrate current_size target_size min_bitrate max_bitrate
        (some u) (some o)
      = (if |max min_bitrate (min max_bitrate
              (u.1 + ((target_size : ℚ) - (u.2 : ℚ)) * (o.1 - u.1) / ((o.2 : ℚ) - (u.2 : ℚ))))
            - current_bitrate| < 1
         then (min_bitrate + max_bitrate) / 2
         else max min_bitrate (min max_bitrate
              (u.1 + ((target_size : ℚ) - (u.2 : ℚ)) * (o.1 - u.1) / ((o.2 : ℚ) - (u.2 : ℚ))))) :=
  rfl

theorem estimate_spec_none_left (current_bitrate : ℚ) (current_size target_size : ℤ)
    (min_bitrate max_bitrate : ℚ) (over : Option (ℚ × ℤ)) :
    estimate_spec current_bitrate current_size target_size min_bitrate max_bitrate
        none over
      = (if |max min_bitrate (min max_bitrate
              (current_bitrate * ((target_size : ℚ) / (current_size : ℚ))))
            - current_bitrate| < 1
         then (min_bitrate + max_bitrate) / 2
         else max min_bitrate (min max_bitrate
              (current_bitrate * ((target_size : ℚ) / (current_size : ℚ))))) :=
  rfl

theorem estimate_spec_none_right (current_bitrate : ℚ) (current_size target_size : ℤ)
    (min_bitrate max_bitrate : ℚ) (u : ℚ × ℤ) :
    estimate_spec current_bitrate current_size target_size min_bitrate max_bitrate
        (some u) none
      = (if |max min_bitrate (min max_bitrate
              (current_bitrate * ((target_size : ℚ) / (current_size : ℚ))))
            - current_bitrate| < 1
         then (min_bitrate + max_bitrate) / 2
         else max min_bitrate (min max_bitrate
              (current_bitrate * ((target_size : ℚ) / (current_size : ℚ))))) :=
  rfl

theorem searchStep_under_eq {target_size_bytes : ℤ} {tolerance_bytes : ℚ} {iteration : ℕ}
    {s : SearchState} {new_file_size : ℤ}
    (hU : new_file_size < target_size_bytes)
    (hT : ¬ ((target_size_bytes - new_file_size : ℤ) : ℚ) < tolerance_bytes) :
    searchStep target_size_bytes tolerance_bytes iteration s new_file_size
      = stepNext target_size_bytes
          { s with min_bitrate := s.current_bitrate,
                   best_under := some (updateBestUnder s.best_under s.current_bitrate new_file_size) }
          new_file_size := by
  unfold searchStep
  rw [if_pos hU, if_neg hT]

theorem searchStep_over_eq {target_size_bytes : ℤ} {tolerance_bytes : ℚ} {iteration : ℕ}
    {s : SearchState} {new_file_size : ℤ}
    (hU : ¬ new_file_size < target_size_bytes) :
    searchStep target_size_bytes tolerance_bytes iteration s new_file_size
      = stepNext target_size_bytes
          { s with max_bitrate := s.current_bitrate,
                   best_over := some (updateBestOver s.best_over s.current_bitrate new_file_size) }
          new_file_size := by
  unfold searchStep
  rw [if_neg hU]

/-- On every `next` outcome of an iteration step, the bound updates and the
clamped candidate preserve the bracket invariant; the recorded early-exit flag
is exactly the candidate-below-minimum test. -/
theorem searchStep_next_inv {target_size_bytes : ℤ} {tolerance_bytes : ℚ} {iteration : ℕ}
    {s : SearchState} {new_file_size : ℤ} {s' : SearchState} {b : Bool}
    (h1 : s.min_bitrate ≤ s.current_bitrate)
    (h2 : s.current_bitrate ≤ s.max_bitrate)
    (hstep : searchStep target_size_bytes tolerance_bytes iteration s new_file_size = .next s' b) :
    s.min_bitrate ≤ s'.min_bitrate
    ∧ s'.min_bitrate ≤ s'.current_bitrate
    ∧ s'.current_bitrate ≤ s'.max_bitrate
    ∧ s'.min_bitrate ≤ s'.max_bitrate
    ∧ b = decide (s'.current_bitrate < MIN_VIDEO_BITRATE) := by
  by_cases hU : new_file_size < target_size_bytes
  · by_cases hT : ((target_size_bytes - new_file_size : ℤ) : ℚ) < tolerance_bytes
    · unfold searchStep at hstep
      rw [if_pos hU, if_pos hT] at hstep
      exact absurd hstep (by simp)
    · rw [searchStep_under_eq hU hT] at hstep
      unfold stepNext at hstep
      obtain ⟨hs, hb⟩ := StepOut.next.inj hstep
      subst hs
      subst hb
      obtain ⟨e1, e2⟩ := estimate_mem s.current_bitrate new_file_size target_size_bytes
        (some (updateBestUnder s.best_under s.current_bitrate new_file_size)) s.best_over h2
      exact ⟨h1, e1, e2, h2, rfl⟩
  · rw [searchStep_over_eq hU] at hstep
    unfold stepNext at hstep
    obtain ⟨hs, hb⟩ := StepOut.next.inj hstep
    subst hs
    subst hb
    obtain ⟨e1, e2⟩ := estimate_mem s.current_bitrate new_file_size target_size_bytes
      s.best_under (some (updateBestOver s.best_over s.current_bitrate new_file_size)) h1
    exact ⟨le_refl _, e1, e2, h1, rfl⟩

/-- The loop never takes the low-bitrate early exit from a state satisfying
the bracket invariant with `MIN_VIDEO_BITRATE ≤ min_bitrate`. -/
theorem searchLoop_no_low_exit (enc : ℚ → ℤ) (target_size_bytes : ℤ) (tolerance_bytes : ℚ) :
    ∀ (fuel it : ℕ) (last : Option (ℤ × ℚ)) (s : SearchState),
      MIN_VIDEO_BITRATE ≤ s.min_bitrate →
      s.min_bitrate ≤ s.current_bitrate →
      s.current_bitrate ≤ s.max_bitrate →
      (searchLoopAux enc target_size_bytes tolerance_bytes fuel it last s).2 = false := by
  intro fuel
  induction fuel with
  | zero => intro it last s _ _ _; rfl
  | succ n ih =>
      intro it last s h0 h1 h2
      simp only [searchLoopAux]
      cases hstep : searchStep target_size_bytes tolerance_bytes (it + 1) s
          (enc s.current_bitrate) with
      | done r => simp
      | next s' b =>
          obtain ⟨ha, hb', hc, _, he⟩ := searchStep_next_inv h1 h2 hstep
          have hflag : b = false := by
            rw [he]
            exact decide_eq_false (not_lt.2 (le_trans (le_trans h0 ha) hb'))
          subst hflag
          simpa using ih (it + 1) (some (enc s.current_bitrate, s.current_bitrate)) s'
            (le_trans h0 ha) hb' hc

/-! ### Claims -/

/-- C1: for every iteration of the search loop, the next candidate bitrate is
the secant interpolation of the `best_under`/`best_over` observations when both
exist, and proportional scaling `current_bitrate * (target_size / current_size)`
otherwise; the result is clamped to `[min_bitrate, max_bitrate]`, and when the
clamped candidate differs from the current bitrate by less than 1 kbps it is
replaced by the bound midpoint.  The hypotheses record the loop facts that
`best_under` observations are strictly under target, `best_over` observations
at or over target, the observed size is positive when only one side is known,
and the bounds are ordered. -/
theorem C1_estimate_formula (current_bitrate : ℚ) (current_size target_size : ℤ)
    (min_bitrate max_bitrate : ℚ) (under over : Option (ℚ × ℤ))
    (hbounds : min_bitrate ≤ max_bitrate)
    (hbr : ∀ u o, under = some u → over = some o → u.2 < target_size ∧ target_size ≤ o.2)
    (hsz : under = none ∨ over = none → 0 < current_size) :
    estimate_next_bitrate current_bitrate current_size target_size
        min_bitrate max_bitrate under over
      = estimate_spec current_bitrate current_size target_size
        min_bitrate max_bitrate under over := by
  rcases under with _ | u <;> rcases over with _ | o
  · have hc : 0 < current_size := hsz (Or.inl rfl)
    unfold estimate_next_bitrate
    rw [rawEstimate_none_left, if_pos hc, clampStep_eq_max_min hbounds, dampStep_eq,
      estimate_spec_none_left]
  · have hc : 0 < current_size := hsz (Or.inl rfl)
    unfold estimate_next_bitrate
    rw [rawEstimate_none_left, if_pos hc, clampStep_eq_max_min hbounds, dampStep_eq,
      estimate_spec_none_left]
  · have hc : 0 < current_size := hsz (Or.inr rfl)
    unfold estimate_next_bitrate
    rw [rawEstimate_none_right, if_pos hc, clampStep_eq_max_min hbounds, dampStep_eq,
      estimate_spec_none_right]
  · obtain ⟨hu, ho⟩ := hbr u o rfl rfl
    have hspan : 0 < o.2 - u.2 := by omega
    unfold estimate_next_bitrate
    rw [rawEstimate_both, if_pos hspan, clampStep_eq_max_min hbounds, dampStep_eq,
      estimate_spec_both]

theorem C1_witness :
    estimate_next_bitrate 200 900000 1048576 100 400
        (some (150, 900000)) (some (300, 1200000))
      = estimate_spec 200 900000 1048576 100 400
        (some (150, 900000)) (some (300, 1200000)) :=
  C1_estimate_formula 200 900000 1048576 100 400
    (some (150, 900000)) (some (300, 1200000))
    (by norm_num)
    (by intro u o h1 h2; cases h1; cases h2; exact ⟨by decide, by decide⟩)
    (fun _ => by decide)

/-- C2: under ordered bounds the value returned by `_estimate_next_bitrate`
lies within the bounds in force at the time of the call (including after the
damping snap to the midpoint), and the bound updates of an iteration step
(`min := current` on under-target, `max := current` on over-target) preserve
`min_bitrate ≤ max_bitrate`, assuming the loop invariant
`min_bitrate ≤ current_bitrate ≤ max_bitrate` on entry. -/
theorem C2_bounds_invariant (current_bitrate : ℚ) (current_size target_size : ℤ)
    (min_bitrate max_bitrate : ℚ) (under over : Option (ℚ × ℤ))
    (target_size_bytes : ℤ) (tolerance_bytes : ℚ) (iteration : ℕ)
    (s s' : SearchState) (b : Bool) (new_file_size : ℤ)
    (hminmax : min_bitrate ≤ max_bitrate)
    (h1 : s.min_bitrate ≤ s.current_bitrate)
    (h2 : s.current_bitrate ≤ s.max_bitrate)
    (hstep : searchStep target_size_bytes tolerance_bytes iteration s new_file_size
      = .next s' b) :
    (min_bitrate ≤ estimate_next_bitrate current_bitrate current_size target_size
        min_bitrate max_bitrate under over
      ∧ estimate_next_bitrate current_bitrate current_size target_size
          min_bitrate max_bitrate under over ≤ max_bitrate)
    ∧ (s'.min_bitrate ≤ s'.current_bitrate ∧ s'.current_bitrate ≤ s'.max_bitrate
      ∧ s'.min_bitrate ≤ s'.max_bitrate) := by
  refine ⟨estimate_mem current_bitrate current_size target_size under over hminmax, ?_⟩
  obtain ⟨_, hb', hc, hd, _⟩ := searchStep_next_inv h1 h2 hstep
  exact ⟨hb', hc, hd⟩

theorem C2_witness :
    ((100 : ℚ) ≤ estimate_next_bitrate 150 1000 500 100 200 none none
      ∧ estimate_next_bitrate 150 1000 500 100 200 none none ≤ 200)
    ∧ ((⟨105, 110, 110, some (105, 50), none⟩ : SearchState).min_bitrate
          ≤ (⟨105, 110, 110, some (105, 50), none⟩ : SearchState).current_bitrate
      ∧ (⟨105, 110, 110, some (105, 50), none⟩ : SearchState).current_bitrate
          ≤ (⟨105, 110, 110, some (105, 50), none⟩ : SearchState).max_bitrate
      ∧ (⟨105, 110, 110, some (105, 50), none⟩ : SearchState).min_bitrate
          ≤ (⟨105, 110, 110, some (105, 50), none⟩ : SearchState).max_bitrate) :=
  C2_bounds_invariant 150 1000 500 100 200 none none
    1048576 ((1048576 : ℚ) * (2 / 100)) 1
    ⟨100, 110, 105, none, none⟩ ⟨105, 110, 110, some (105, 50), none⟩ false 50
    (by norm_num) (by decide) (by decide) (by decide)

/-- C3: an encode outcome is classified under-target exactly when its size is
strictly below the target (a size equal to the target takes the over-target
branch), and the iteration returns the `Converged` success result — success
flag set, artifact promoted to the output path, iteration count equal to the
current iteration — exactly when the outcome is under target and
`target_size_bytes - new_file_size < tolerance_bytes`. -/
theorem C3_convergence_classification (target_size_bytes : ℤ) (tolerance_bytes : ℚ)
    (iteration : ℕ) (s : SearchState) (new_file_size : ℤ) :
    (searchStep target_size_bytes tolerance_bytes iteration s new_file_size
        = .done ⟨true, .output, new_file_size, iteration, s.current_bitrate⟩
      ↔ (new_file_size < target_size_bytes
        ∧ ((target_size_bytes - new_file_size : ℤ) : ℚ) < tolerance_bytes))
    ∧ (target_size_bytes ≤ new_file_size →
        searchStep target_size_bytes tolerance_bytes iteration s new_file_size
          = stepNext target_size_bytes
              { s with max_bitrate := s.current_bitrate,
                       best_over := some (updateBestOver s.best_over s.current_bitrate
                         new_file_size) }
              new_file_size) := by
  constructor
  · constructor
    · intro h
      by_cases hU : new_file_size < target_size_bytes
      · by_cases hT : ((target_size_bytes - new_file_size : ℤ) : ℚ) < tolerance_bytes
        · exact ⟨hU, hT⟩
        · rw [searchStep_under_eq hU hT] at h
          unfold stepNext at h
          exact absurd h (by simp)
      · rw [searchStep_over_eq hU] at h
        unfold stepNext at h
        exact absurd h (by simp)
    · rintro ⟨hU, hT⟩
      unfold searchStep
      rw [if_pos hU, if_pos hT]
  · intro hO
    exact searchStep_over_eq (not_lt.2 hO)

theorem C3_witness :
    searchStep 1000 20 3 ⟨100, 300, 200, none, none⟩ 1000
      = stepNext 1000 ⟨100, 200, 200, none, some (200, 1000)⟩ 1000 :=
  (C3_convergence_classification 1000 20 3 ⟨100, 300, 200, none, none⟩ 1000).2 (by norm_num)

/-- C4: when the iteration budget is exhausted without convergence, the loop
reports exactly the claim's exhaustion outcome: the last artifact is promoted
as a partial success (`success = false`) with the last encode's size and
bitrate when that size is at or under target, and otherwise the run fails,
reporting the `best_over` observation when one is recorded and the last
outcome otherwise. -/
theorem C4_exhaustion_outcome (enc : ℚ → ℤ) (target_size_bytes : ℤ)
    (tolerance_bytes : ℚ) (it : ℕ) (last_size : ℤ) (last_bitrate : ℚ) (s : SearchState) :
    searchLoopAux enc target_size_bytes tolerance_bytes 0 it
        (some (last_size, last_bitrate)) s
      = (exhaustedOutcome target_size_bytes it last_size last_bitrate s.best_over, false) :=
  rfl

theorem initial_bounds_some (t sb : ℚ) (a : ℤ) :
    initial_bounds t (some sb) a
      = (MIN_VIDEO_BITRATE,
          max (if 0 < sb then
                 min (t * 2) (max MIN_VIDEO_BITRATE (sb - (a : ℚ)) * (11 / 10))
               else t * 2)
            t) := rfl

/-- C5 counterexample: for the run with duration 106 s, target size 3 MB and a
known positive source bitrate of 150 kbps, the code caps `max` at
`max(MIN_VIDEO_BITRATE, source - audio) * 1.1 = 110`, while the claim's
formula `(source - audio) * 1.1` is negative, so the claimed bounds floor to
the target bitrate instead: the two disagree. -/
theorem C5_counterexample :
    (0 : ℚ) < 150
    ∧ initial_bounds targetBitrateC5 (some 150) audioC5
        ≠ initial_bounds_claim targetBitrateC5 150 audioC5 := by
  constructor
  · norm_num
  · decide

/-- C5 (amended): for a known positive source bitrate the initial bounds are
`min = MIN_VIDEO_BITRATE` and `max` the minimum of `target_bitrate * 2` and
`max(MIN_VIDEO_BITRATE, source_bitrate - audio_bitrate) * 1.1`, floored so
that `max ≥ target_bitrate`. -/
theorem C5_initial_bounds_amended (target_bitrate source_bitrate : ℚ) (audio_bitrate : ℤ)
    (hsb : 0 < source_bitrate) :
    initial_bounds target_bitrate (some source_bitrate) audio_bitrate
      = (MIN_VIDEO_BITRATE,
         max (min (target_bitrate * 2)
               (max MIN_VIDEO_BITRATE (source_bitrate - (audio_bitrate : ℚ)) * (11 / 10)))
           target_bitrate) := by
  rw [initial_bounds_some, if_pos hsb]

theorem C5_witness :
    initial_bounds targetBitrateC5 (some 150) audioC5
      = (MIN_VIDEO_BITRATE,
         max (min (targetBitrateC5 * 2)
               (max MIN_VIDEO_BITRATE ((150 : ℚ) - (audioC5 : ℚ)) * (11 / 10)))
           targetBitrateC5) :=
  C5_initial_bounds_amended targetBitrateC5 150 audioC5 (by norm_num)

/-- C6 counterexample: an iteration that starts with
`current_bitrate = min_bitrate = 100` (as happens on iteration 1 whenever the
initial target bitrate clamps to `MIN_VIDEO_BITRATE`) and comes out
under-target but outside tolerance re-assigns `min_bitrate := current_bitrate`,
leaving it unchanged — not strictly greater as claimed. -/
theorem C6_counterexample :
    ((500000 : ℤ) < 1048576
      ∧ ¬ (((1048576 - 500000 : ℤ) : ℚ) < (1048576 : ℚ) * (2 / 100)))
    ∧ searchStep 1048576 ((1048576 : ℚ) * (2 / 100)) 1 ⟨100, 110, 100, none, none⟩ 500000
        = .next ⟨100, 110, 110, some (100, 500000), none⟩ false
    ∧ ¬ ((⟨100, 110, 100, none, none⟩ : SearchState).min_bitrate
          < (⟨100, 110, 110, some (100, 500000), none⟩ : SearchState).min_bitrate) := by
  decide

/-- C6 (amended): on an under-target, outside-tolerance iteration the updated
`min_bitrate` equals the encoded bitrate, hence is at least its prior value
(given the loop invariant `min_bitrate ≤ current_bitrate`), and is strictly
greater exactly on iterations where `current_bitrate` strictly exceeds
`min_bitrate`. -/
theorem C6_min_monotone (target_size_bytes : ℤ) (tolerance_bytes : ℚ) (iteration : ℕ)
    (s : SearchState) (new_file_size : ℤ) (s' : SearchState) (b : Bool)
    (hunder : new_file_size < target_size_bytes)
    (htol : ¬ ((target_size_bytes - new_file_size : ℤ) : ℚ) < tolerance_bytes)
    (hinv : s.min_bitrate ≤ s.current_bitrate)
    (hstep : searchStep target_size_bytes tolerance_bytes iteration s new_file_size
      = .next s' b) :
    s.min_bitrate ≤ s'.min_bitrate
    ∧ (s.min_bitrate < s.current_bitrate → s.min_bitrate < s'.min_bitrate) := by
  rw [searchStep_under_eq hunder htol] at hstep
  unfold stepNext at hstep
  obtain ⟨hs, _⟩ := StepOut.next.inj hstep
  subst hs
  exact ⟨hinv, fun h => h⟩

theorem C6_witness :
    (⟨100, 300, 200, none, none⟩ : SearchState).min_bitrate
        ≤ (⟨200, 300, 300, some (200, 100), none⟩ : SearchState).min_bitrate
    ∧ ((⟨100, 300, 200, none, none⟩ : SearchState).min_bitrate
          < (⟨100, 300, 200, none, none⟩ : SearchState).current_bitrate
        → (⟨100, 300, 200, none, none⟩ : SearchState).min_bitrate
            < (⟨200, 300, 300, some (200, 100), none⟩ : SearchState).min_bitrate) :=
  C6_min_monotone 1048576 ((1048576 : ℚ) * (2 / 100)) 1
    ⟨100, 300, 200, none, none⟩ 100 ⟨200, 300, 300, some (200, 100), none⟩ false
    (by decide) (by decide) (by decide) (by decide)

/-- C7: for positive duration and target size and a default audio bitrate of at
least `MIN_AUDIO_BITRATE`, the audio-bitrate selection agrees with the claim's
formula — return the default when the total admissible bitrate minus
`MIN_VIDEO_BITRATE / CONTAINER_OVERHEAD` exceeds the default, otherwise the
truncated remaining headroom floored at `MIN_AUDIO_BITRATE` — and the returned
value always lies in `[MIN_AUDIO_BITRATE, default]`. -/
theorem C7_select_audio (duration : ℚ) (target_size_bytes default_audio_bitrate : ℤ)
    (hd : 0 < duration) (_ht : 0 < target_size_bytes)
    (hdefa : MIN_AUDIO_BITRATE ≤ default_audio_bitrate) :
    select_audio_bitrate duration target_size_bytes default_audio_bitrate
      = select_audio_spec duration target_size_bytes default_audio_bitrate
    ∧ MIN_AUDIO_BITRATE ≤ select_audio_bitrate duration target_size_bytes
        default_audio_bitrate
    ∧ select_audio_bitrate duration target_size_bytes default_audio_bitrate
      ≤ default_audio_bitrate := by
  simp only [select_audio_bitrate, select_audio_spec]
  rw [if_neg (not_le.2 hd)]
  set M : ℚ := (target_size_bytes : ℚ) * 8 / duration / 1000
    - MIN_VIDEO_BITRATE / CONTAINER_OVERHEAD with hM
  by_cases hge : (default_audio_bitrate : ℚ) ≤ M
  · rw [if_pos hge]
    by_cases hlt : (default_audio_bitrate : ℚ) < M
    · rw [if_pos hlt]
      exact ⟨rfl, hdefa, le_refl _⟩
    · have hMeq : M = (default_audio_bitrate : ℚ) := le_antisymm (not_lt.1 hlt) hge
      rw [if_neg hlt, hMeq, pyInt_intCast, max_eq_right hdefa]
      exact ⟨rfl, hdefa, le_refl _⟩
  · have hMlt : M < (default_audio_bitrate : ℚ) := not_le.1 hge
    rw [if_neg hge, if_neg (fun h => hge (le_of_lt h))]
    by_cases hz : M ≤ 0
    · rw [if_pos hz]
      have hple : pyInt M ≤ 0 := pyInt_nonpos hz
      rw [max_eq_left (le_trans hple (by decide))]
      exact ⟨rfl, le_refl _, hdefa⟩
    · rw [if_neg hz]
      have hMpos : 0 ≤ M := le_of_lt (not_le.1 hz)
      have hfl : pyInt M = ⌊M⌋ := pyInt_of_nonneg hMpos
      have hfle : pyInt M < default_audio_bitrate := by
        rw [hfl]
        have h2 : ((⌊M⌋ : ℤ) : ℚ) < (default_audio_bitrate : ℚ) :=
          lt_of_le_of_lt (Int.floor_le M) hMlt
        exact_mod_cast h2
      by_cases h32 : pyInt M < MIN_AUDIO_BITRATE
      · rw [if_pos h32, max_eq_left (le_of_lt h32)]
        exact ⟨rfl, le_refl _, hdefa⟩
      · rw [if_neg h32, max_eq_right (not_lt.1 h32)]
        exact ⟨rfl, not_lt.1 h32, le_of_lt hfle⟩

theorem C7_witness :
    select_audio_bitrate 100 2000000 128 = select_audio_spec 100 2000000 128
    ∧ MIN_AUDIO_BITRATE ≤ select_audio_bitrate 100 2000000 128
    ∧ select_audio_bitrate 100 2000000 128 ≤ 128 :=
  C7_select_audio 100 2000000 128 (by norm_num) (by decide) (by decide)

/-- C8 counterexample: a progress block whose `out_time_ms` parses as the
integer -1000000 (with duration 10 s) yields a percent value of -10, which is
below 0: the formatter only clamps from above. -/
theorem C8_counterexample :
    progress_percent (-1000000) 10 = some (-10) ∧ ¬ ((0 : ℚ) ≤ -10) := by
  decide

/-- C8 (amended): the derived percent value never exceeds 100, and it lies
within `[0, 100]` whenever the parsed `out_time_ms` is nonnegative — the
formula `min 100 ((out_seconds / duration) * 100)` has no lower clamp. -/
theorem C8_percent_range (out_time_ms : ℤ) (duration : ℚ) (p : ℚ)
    (hd : 0 < duration)
    (hp : progress_percent out_time_ms duration = some p) :
    p ≤ 100 ∧ (0 ≤ out_time_ms → 0 ≤ p) := by
  unfold progress_percent at hp
  rw [if_pos hd] at hp
  obtain hp' := Option.some.inj hp
  subst hp'
  refine ⟨min_le_left _ _, fun ho => ?_⟩
  have hnum : (0 : ℚ) ≤ ((out_time_ms : ℚ) / 1000000) / duration * 100 := by
    apply mul_nonneg
    · apply div_nonneg
      · apply div_nonneg
        · exact_mod_cast ho
        · norm_num
      · exact le_of_lt hd
    · norm_num
  exact le_min (by norm_num) hnum

theorem C8_witness :
    (5 : ℚ) ≤ 100 ∧ ((0 : ℤ) ≤ 500000 → (0 : ℚ) ≤ 5) :=
  C8_percent_range 500000 10 5 (by norm_num) (by decide)

theorem enc9_monotone : ∀ a b : ℚ, a ≤ b → enc9 a ≤ enc9 b := by
  intro a b hab
  unfold enc9
  split_ifs with ha hb hb
  · exact le_refl _
  · decide
  · exact absurd (lt_of_le_of_lt hab hb) ha
  · exact le_refl _

/-- C9 counterexample: for the 10 MB / 80 s run, the initial bound spread lies
in `(2^10, 2^11]`, so the claimed iteration bound is `11 + 2 = 13`; yet the
monotonically increasing encoder `enc9`, whose output sizes never enter the
tolerance band, leaves the loop unconverged even after 15 iterations — the
claim's universally quantified convergence bound is false. -/
theorem C9_counterexample :
    ((2 : ℚ) ^ 10 < bounds9.2 - bounds9.1 ∧ bounds9.2 - bounds9.1 ≤ (2 : ℚ) ^ 11)
    ∧ ¬ (∀ enc : ℚ → ℤ, (∀ a b : ℚ, a ≤ b → enc a ≤ enc b) →
          convergedBy
              (runLoop enc targetBytes9 ((targetBytes9 : ℚ) * (2 / 100)) 15 state9).1 13
            = true) := by
  refine ⟨⟨by decide, by decide⟩, fun h => ?_⟩
  exact absurd (h enc9 enc9_monotone) (by decide)

/-- C9 (amended): no iteration bound holds for arbitrary monotonically
increasing encoders (see the counterexample), but for the specification's own
linear synthetic encoder (Scenario A: 120 s, 100 MB target, 2 % tolerance,
`size = bitrate * duration * 125` bytes) the controller converges within
`ceil(log2(max - min)) + 2 = 16` iterations — in fact at iteration 5. -/
theorem C9_linear_convergence_amended :
    ((2 : ℚ) ^ 13 < boundsA.2 - boundsA.1 ∧ boundsA.2 - boundsA.1 ≤ (2 : ℚ) ^ 14)
    ∧ (runLoop encA targetBytesA ((targetBytesA : ℚ) * (2 / 100)) 16 stateA).1
        = .ok ⟨true, .output, 103605568, 5, 12950696 / 1875⟩
    ∧ convergedBy
        (runLoop encA targetBytesA ((targetBytesA : ℚ) * (2 / 100)) 16 stateA).1 16
        = true := by
  exact ⟨⟨by decide, by decide⟩, by decide, by decide⟩

/-- C10: from any state whose bounds satisfy
`MIN_VIDEO_BITRATE ≤ min_bitrate ≤ current_bitrate ≤ max_bitrate` (as the
initial state does), an iteration step keeps `min_bitrate` at or above
`MIN_VIDEO_BITRATE` and never lowers it, its low-bitrate flag is always false,
and consequently the whole loop never takes the `Bitrate too low` early exit:
that branch is unreachable. -/
theorem C10_no_low_bitrate_exit (enc : ℚ → ℤ) (target_size_bytes : ℤ)
    (tolerance_bytes : ℚ) (fuel it : ℕ) (last : Option (ℤ × ℚ)) (s : SearchState)
    (h0 : MIN_VIDEO_BITRATE ≤ s.min_bitrate)
    (h1 : s.min_bitrate ≤ s.current_bitrate)
    (h2 : s.current_bitrate ≤ s.max_bitrate) :
    (∀ s' b, searchStep target_size_bytes tolerance_bytes it s (enc s.current_bitrate)
        = .next s' b →
      MIN_VIDEO_BITRATE ≤ s'.min_bitrate ∧ s.min_bitrate ≤ s'.min_bitrate ∧ b = false)
    ∧ (searchLoopAux enc target_size_bytes tolerance_bytes fuel it last s).2 = false := by
  constructor
  · intro s' b hstep
    obtain ⟨ha, hb', _, _, he⟩ := searchStep_next_inv h1 h2 hstep
    refine ⟨le_trans h0 ha, ha, ?_⟩
    rw [he]
    exact decide_eq_false (not_lt.2 (le_trans (le_trans h0 ha) hb'))
  · exact searchLoop_no_low_exit enc target_size_bytes tolerance_bytes fuel it last s h0 h1 h2

theorem C10_witness :
    (searchLoopAux (fun _ => 0) 1000 10 2 0 none ⟨100, 200, 150, none, none⟩).2 = false :=
  (C10_no_low_bitrate_exit (fun _ => 0) 1000 10 2 0 none ⟨100, 200, 150, none, none⟩
    (by decide) (by decide) (by decide)).2

end Squash
